import Mathlib

/-!
Verification of the Simple E-commerce Cart System.

Shallow embedding of the core data model and operations of the program
(`Simple E-commerce Cart System.py`): products, discount strategies,
cart line items, the shopping cart with its mutation operations, the
prototype registry (catalog) and checkout.  Python's unbounded integers
are modelled by `ℤ`, its numeric prices by `ℚ`, the `products` dict by
an association list with first-match lookup (dict keys are unique in
every reachable state, and `dict.get` returns the unique binding), and
in-place mutation by explicit state passing.
-/

set_option autoImplicit false

/-- The `Product` class: name, price, availability flag, remaining count and
discount percentage (`count` defaults to 10 in the constructor). -/
structure Product where
  name : String
  price : ℚ
  available : Bool
  count : ℤ
  discount : ℚ
deriving DecidableEq

/-- The discount strategies of the source: the base `DiscountStrategy`
(identity), `PercentageOffDiscountStrategy(percentage)` and
`BuyOneGetOneFreeDiscountStrategy`. -/
inductive DiscountStrategy where
  | base
  | percentageOff (percentage : ℚ)
  | buyOneGetOneFree
deriving DecidableEq

/-- `apply_discount`: base returns the price unchanged; percentage-off returns
`price * (1 - percentage / 100)`; buy-one-get-one-free returns `price * 0.5`. -/
def apply_discount : DiscountStrategy → ℚ → ℚ
  | .base, price => price
  | .percentageOff percentage, price => price * (1 - percentage / 100)
  | .buyOneGetOneFree, price => price * (1 / 2)

/-- The `CartItem` class: a name/price snapshot plus quantity and the chosen
discount strategy. -/
structure CartItem where
  name : String
  price : ℚ
  quantity : ℤ
  discount_strategy : DiscountStrategy
deriving DecidableEq

/-- `CartItem.calculate_total`: discounted unit price times quantity. -/
def CartItem.calculate_total (item : CartItem) : ℚ :=
  apply_discount item.discount_strategy item.price * item.quantity

/-- `ShoppingCart.cart_items`: an ordered list of cart items. -/
abbrev Cart := List CartItem

/-- `ProductPrototype.products`: the catalog, a mapping from product name to
`Product` (Python dict, modelled as an association list). -/
abbrev Products := List (String × Product)

/-- `ShoppingCart.add_item`: appends a fresh `CartItem` built from the
product's name and price, the given quantity and discount strategy. -/
def add_item (cart : Cart) (product : Product) (quantity : ℤ)
    (ds : DiscountStrategy) : Cart :=
  cart ++ [⟨product.name, product.price, quantity, ds⟩]

/-- `ShoppingCart.update_quantity`: sets the quantity of the first item whose
name matches and returns; a no-op (with a warning) when no item matches. -/
def update_quantity (cart : Cart) (product_name : String) (new_quantity : ℤ) :
    Cart :=
  match cart with
  | [] => []
  | item :: rest =>
    if item.name = product_name then { item with quantity := new_quantity } :: rest
    else item :: update_quantity rest product_name new_quantity

/-- `ShoppingCart.remove_item` with `remove_quantity=None`: keeps exactly the
items whose name differs (a list comprehension filter). -/
def remove_all (cart : Cart) (product_name : String) : Cart :=
  cart.filter fun item => item.name ≠ product_name

/-- `ShoppingCart.remove_item` with a given `remove_quantity`: iterates over
the list, decrementing each matching item's quantity; an item whose new
quantity is `≤ 0` is removed from the list being iterated, so (as in the
Python `for` loop mutating `cart_items`) the element immediately after a
removed item is skipped. -/
def remove_some (cart : Cart) (product_name : String) (remove_quantity : ℤ) :
    Cart :=
  match cart with
  | [] => []
  | item :: rest =>
    if item.name = product_name then
      if item.quantity - remove_quantity ≤ 0 then
        match rest with
        | [] => []
        | next :: rest2 => next :: remove_some rest2 product_name remove_quantity
      else
        { item with quantity := item.quantity - remove_quantity }
          :: remove_some rest product_name remove_quantity
    else item :: remove_some rest product_name remove_quantity

/-- `ShoppingCart.remove_item`: dispatch on whether a quantity was given. -/
def remove_item (cart : Cart) (product_name : String) :
    Option ℤ → Cart
  | none => remove_all cart product_name
  | some q => remove_some cart product_name q

/-- `ShoppingCart.calculate_total_bill`: the sum of the items' totals. -/
def calculate_total_bill (cart : Cart) : ℚ :=
  (cart.map CartItem.calculate_total).sum

/-- Outcome of `ShoppingCart.checkout`: the success log message, or the
warning naming the product with not enough stock. -/
inductive CheckoutResult where
  | success
  | insufficientStock (product_name : String)
deriving DecidableEq

/-- Replace the binding of `product_name` (the dict's unique binding; first
match in the association list) with the given product.  Models the in-place
mutation of the `Product` object held in `products`. -/
def replace_product : Products → String → Product → Products
  | [], _, _ => []
  | (k, v) :: rest, product_name, p =>
    if k = product_name then (k, p) :: rest
    else (k, v) :: replace_product rest product_name p

/-- The mutation checkout performs on a product with sufficient stock:
`count -= quantity`, and `available = False` when the new count is 0
(otherwise `available` is left as it was). -/
def checkout_update (product : Product) (quantity : ℤ) : Product :=
  let new_count := product.count - quantity
  { product with
      count := new_count
      available := if new_count = 0 then false else product.available }

/-- `ShoppingCart.checkout`: walk the cart items in order; an item whose name
is not in `products` is skipped; an item with `product.count >= quantity` has
its product decremented (availability flipped at zero); otherwise the loop
returns immediately, keeping all decrements already made. -/
def checkout : Cart → Products → Products × CheckoutResult
  | [], products => (products, .success)
  | item :: rest, products =>
    match List.lookup item.name products with
    | none => checkout rest products
    | some product =>
      if item.quantity ≤ product.count then
        checkout rest
          (replace_product products item.name (checkout_update product item.quantity))
      else (products, .insufficientStock item.name)

/-- Python dict assignment `products[name] = product`: overwrite the existing
binding in place, or append a new one. -/
def dict_insert : Products → String → Product → Products
  | [], name, p => [(name, p)]
  | (k, v) :: rest, name, p =>
    if k = name then (k, p) :: rest
    else (k, v) :: dict_insert rest name p

/-- `ProductPrototype.register_product`: construct a `Product` (count defaults
to 10) and store it under its name. -/
def register_product (products : Products) (name : String) (price : ℚ)
    (available : Bool) (discount : ℚ) : Products :=
  dict_insert products name
    { name := name, price := price, available := available, count := 10,
      discount := discount }

/-- `ProductPrototype.clone`: deep-copy the stored product and build a
`CartItem` from its name and price with the caller's quantity and strategy
(`none` models the `KeyError` on an absent name). -/
def clone (products : Products) (name : String) (quantity : ℤ)
    (ds : DiscountStrategy) : Option CartItem :=
  (List.lookup name products).map fun product =>
    ⟨product.name, product.price, quantity, ds⟩

/-- The admin-menu "update product availability" action: when the name is
registered, set `available`, `count` and `discount` on the stored product. -/
def admin_update (products : Products) (product_name : String)
    (available : Bool) (count : ℤ) (discount : ℚ) : Products :=
  match List.lookup product_name products with
  | some product =>
      replace_product products product_name
        { product with available := available, count := count, discount := discount }
  | none => products

/-- The application session state: the catalog and one shopping cart
(as created by `main_menu`). -/
structure Session where
  products : Products
  cart : Cart
deriving DecidableEq

/-- The customer-menu "add to cart" action:
`cart.add_item(prototype.clone(name, quantity, ds), quantity, ds)` — the
cloned item supplies name and price, and a fresh `CartItem` is appended. -/
def session_add_to_cart (s : Session) (name : String) (quantity : ℤ)
    (ds : DiscountStrategy) : Session :=
  match clone s.products name quantity ds with
  | some item => { s with cart := s.cart ++ [item] }
  | none => s

/-- Admin "update product availability" acting on the session. -/
def session_admin_update (s : Session) (product_name : String)
    (available : Bool) (count : ℤ) (discount : ℚ) : Session :=
  { s with products := admin_update s.products product_name available count discount }

/-- Admin "add new product" acting on the session (a `register_product`,
which overwrites any existing binding of the name). -/
def session_register (s : Session) (name : String) (price : ℚ)
    (available : Bool) (discount : ℚ) : Session :=
  { s with products := register_product s.products name price available discount }

/-- The cart invariant of the data model: every line item present in the
cart has positive quantity. -/
def cart_invariant (cart : Cart) : Prop :=
  ∀ item ∈ cart, 0 < item.quantity

instance (cart : Cart) : Decidable (cart_invariant cart) :=
  inferInstanceAs (Decidable (∀ item ∈ cart, 0 < item.quantity))

/-- The sample catalog built by `load_products` from `product_data`. -/
def demo_products : Products :=
  [("Laptop1", ⟨"Laptop1", 800, true, 20, 5⟩),
   ("Headphones1", ⟨"Headphones1", 50, false, 10, 0⟩)]

/-- Modelled from the spec: the per-pair deduction of §6's success outcome —
deduct the quantity from the catalog entry of that name (when present) and
mark a zero-count entry unavailable.  Used to compare checkout's success
outcome against the spec's description. -/
def spec_deduct (products : Products) (name : String) (quantity : ℤ) :
    Products :=
  match List.lookup name products with
  | none => products
  | some product => replace_product products name (checkout_update product quantity)

/-! ### Helper lemmas -/

theorem lookup_dict_insert_self (products : Products) (name : String)
    (p : Product) : List.lookup name (dict_insert products name p) = some p := by
  induction products with
  | nil => simp [dict_insert, List.lookup]
  | cons kv rest ih =>
    obtain ⟨k, v⟩ := kv
    by_cases h : k = name
    · subst h; simp [dict_insert, List.lookup]
    · simp [dict_insert, h, List.lookup, ih, beq_false_of_ne (Ne.symm h)]

theorem lookup_replace_product_of_ne (products : Products) (k name : String)
    (p : Product) (h : k ≠ name) :
    List.lookup k (replace_product products name p) = List.lookup k products := by
  induction products with
  | nil => simp [replace_product]
  | cons kv rest ih =>
    obtain ⟨k2, v⟩ := kv
    by_cases h2 : k2 = name
    · subst h2
      simp [replace_product, List.lookup, beq_false_of_ne h]
    · simp [replace_product, h2, List.lookup, ih]

theorem remove_some_cons_other (item : CartItem) (rest : Cart) (name : String)
    (q : ℤ) (h : item.name ≠ name) :
    remove_some (item :: rest) name q = item :: remove_some rest name q := by
  rw [remove_some.eq_def]
  simp only [if_neg h]

theorem remove_some_cons_delete_last (item : CartItem) (name : String) (q : ℤ)
    (h : item.name = name) (hz : item.quantity - q ≤ 0) :
    remove_some [item] name q = [] := by
  rw [remove_some.eq_def]
  simp only [if_pos h, if_pos hz]

theorem remove_some_cons_delete (item next : CartItem) (rest2 : Cart)
    (name : String) (q : ℤ) (h : item.name = name)
    (hz : item.quantity - q ≤ 0) :
    remove_some (item :: next :: rest2) name q = next :: remove_some rest2 name q := by
  rw [remove_some.eq_def]
  simp only [if_pos h, if_pos hz]

theorem remove_some_cons_keep (item : CartItem) (rest : Cart) (name : String)
    (q : ℤ) (h : item.name = name) (hz : ¬ item.quantity - q ≤ 0) :
    remove_some (item :: rest) name q
      = { item with quantity := item.quantity - q } :: remove_some rest name q := by
  rw [remove_some.eq_def]
  simp only [if_pos h, if_neg hz]

theorem checkout_append (rest pre : Cart) (products products1 : Products)
    (h : checkout pre products = (products1, .success)) :
    checkout (pre ++ rest) products = checkout rest products1 := by
  induction pre, products using checkout.induct generalizing products1 with
  | case1 products =>
    simp only [checkout, Prod.mk.injEq] at h
    simp [h.1]
  | case2 item pre products hl ih =>
    simp only [List.cons_append, checkout, hl] at h ⊢
    exact ih _ h
  | case3 item pre products product hl hq ih =>
    simp only [List.cons_append, checkout, hl, if_pos hq] at h ⊢
    exact ih _ h
  | case4 item pre products product hl hq =>
    simp only [checkout, hl, if_neg hq, Prod.mk.injEq] at h
    exact absurd h.2 (by simp)

theorem checkout_lookup_untouched (cart : Cart) (products products1 : Products)
    (r : CheckoutResult) (k : String)
    (h : checkout cart products = (products1, r))
    (hk : ∀ item ∈ cart, item.name ≠ k) :
    List.lookup k products1 = List.lookup k products := by
  induction cart, products using checkout.induct generalizing products1 r with
  | case1 products =>
    simp only [checkout, Prod.mk.injEq] at h
    rw [h.1]
  | case2 item rest products hl ih =>
    simp only [checkout, hl] at h
    exact ih _ _ h fun x hx => hk x (List.mem_cons_of_mem _ hx)
  | case3 item rest products product hl hq ih =>
    simp only [checkout, hl, if_pos hq] at h
    have h2 := ih _ _ h fun x hx => hk x (List.mem_cons_of_mem _ hx)
    rw [h2, lookup_replace_product_of_ne]
    exact fun hkk => hk item (List.mem_cons_self _ _) hkk.symm
  | case4 item rest products product hl hq =>
    simp only [checkout, hl, if_neg hq, Prod.mk.injEq] at h
    rw [← h.1]

/-- Claim C1: when checkout processes a line item whose name is present in the
catalog and whose entry has `count >= quantity`, the entry's count is
decremented by exactly the quantity, and the `available` flag is set to
`false` exactly when the new count is 0 (it is otherwise left as it was): a
cart line holding exactly `count` units leaves the entry with count 0 and
`available = false`, and one holding fewer units leaves an available entry
available. -/
theorem checkout_sufficient_stock_step (products : Products) (rest : Cart)
    (item : CartItem) (product : Product)
    (hl : List.lookup item.name products = some product)
    (hc : item.quantity ≤ product.count) :
    checkout (item :: rest) products
      = checkout rest
          (replace_product products item.name (checkout_update product item.quantity))
    ∧ (checkout_update product item.quantity).count = product.count - item.quantity
    ∧ ((checkout_update product item.quantity).available = false
        ↔ (product.count - item.quantity = 0 ∨ product.available = false))
    ∧ (item.quantity = product.count →
        (checkout_update product item.quantity).count = 0
          ∧ (checkout_update product item.quantity).available = false)
    ∧ (item.quantity < product.count → product.available = true →
        (checkout_update product item.quantity).available = true) := by
  refine ⟨?_, rfl, ?_, ?_, ?_⟩
  · simp only [checkout, hl, if_pos hc]
  · simp only [checkout_update]
    by_cases hz : product.count - item.quantity = 0 <;> simp [hz]
  · intro hq
    have hz : product.count - item.quantity = 0 := by omega
    simp [checkout_update, hz]
  · intro hlt hav
    have hz : product.count - item.quantity ≠ 0 := by omega
    simp [checkout_update, hz, hav]

theorem checkout_sufficient_stock_step_witness :
    checkout [⟨"Laptop1", 800, 5, .base⟩] demo_products
      = checkout []
          (replace_product demo_products "Laptop1"
            (checkout_update ⟨"Laptop1", 800, true, 20, 5⟩ 5))
    ∧ (checkout_update ⟨"Laptop1", 800, true, 20, 5⟩ 5).count = 20 - 5
    ∧ (checkout_update ⟨"Laptop1", 800, true, 20, 5⟩ 5).available = true := by
  have h := checkout_sufficient_stock_step demo_products []
      ⟨"Laptop1", 800, 5, .base⟩ ⟨"Laptop1", 800, true, 20, 5⟩ rfl (by decide)
  exact ⟨h.1, h.2.1, h.2.2.2.2 (by decide) rfl⟩

/-- Claim C10: a line item whose name is absent from the catalog is silently
skipped by checkout — the catalog is not modified for that item and no error
is signalled; if the remaining items all succeed, checkout still reports
overall success. -/
theorem checkout_skips_unknown (item : CartItem) (rest : Cart)
    (products : Products)
    (h : List.lookup item.name products = none) :
    checkout (item :: rest) products = checkout rest products
    ∧ ∀ products1, checkout rest products = (products1, .success) →
        checkout (item :: rest) products = (products1, .success) := by
  have h1 : checkout (item :: rest) products = checkout rest products := by
    simp only [checkout, h]
  exact ⟨h1, fun products1 hs => h1.trans hs⟩

theorem checkout_skips_unknown_witness :
    checkout [⟨"Ghost", 99, 2, .base⟩] demo_products = (demo_products, .success) :=
  (checkout_skips_unknown ⟨"Ghost", 99, 2, .base⟩ [] demo_products rfl).2
    demo_products rfl

/-- Claim C7: `calculate_total_bill` is the sum over all line items of the
discounted unit price times quantity; adding one line item to an empty cart
and computing the total yields `apply_discount ds price * quantity`. -/
theorem calculate_total_bill_spec (cart : Cart) (product : Product) (q : ℤ)
    (ds : DiscountStrategy) :
    calculate_total_bill cart
      = (cart.map fun item =>
          apply_discount item.discount_strategy item.price * item.quantity).sum
    ∧ calculate_total_bill (add_item [] product q ds)
      = apply_discount ds product.price * q := by
  constructor
  · rfl
  · simp [calculate_total_bill, add_item, CartItem.calculate_total]

/-- Claim C8: registering a product and then cloning it with quantity `q` and
the identity discount strategy yields a line item whose total is `price * q`. -/
theorem register_clone_total (products : Products) (name : String) (price : ℚ)
    (available : Bool) (discount : ℚ) (q : ℤ) (_hq : 0 < q) :
    clone (register_product products name price available discount) name q .base
      = some ⟨name, price, q, .base⟩
    ∧ CartItem.calculate_total ⟨name, price, q, .base⟩ = price * q := by
  constructor
  · simp [clone, register_product, lookup_dict_insert_self]
  · simp [CartItem.calculate_total, apply_discount]

theorem register_clone_total_witness :
    clone (register_product [] "X" 3 true 0) "X" 2 .base = some ⟨"X", 3, 2, .base⟩
    ∧ CartItem.calculate_total ⟨"X", 3, 2, .base⟩ = 6 := by
  have h := register_clone_total [] "X" 3 true 0 2 (by decide)
  exact ⟨h.1, h.2.trans (by norm_num)⟩

/-- Claim C9: a line item cloned from a catalog entry is an independent
snapshot — mutating the catalog entry afterwards (the admin update setting
availability, count and discount, or re-registration overwriting the price)
leaves the cart, the item's fields and its computed total unchanged. -/
theorem clone_snapshot_frame (s : Session) (name : String) (q : ℤ)
    (ds : DiscountStrategy) (product : Product)
    (hp : List.lookup name s.products = some product)
    (name2 : String) (available2 : Bool) (count2 : ℤ) (discount2 : ℚ)
    (price2 : ℚ) :
    (session_add_to_cart s name q ds).cart
      = s.cart ++ [⟨product.name, product.price, q, ds⟩]
    ∧ (session_admin_update (session_add_to_cart s name q ds) name2 available2
        count2 discount2).cart = (session_add_to_cart s name q ds).cart
    ∧ (session_register (session_add_to_cart s name q ds) name2 price2
        available2 discount2).cart = (session_add_to_cart s name q ds).cart
    ∧ ((session_admin_update (session_add_to_cart s name q ds) name2 available2
          count2 discount2).cart.map CartItem.calculate_total)
        = List.map CartItem.calculate_total
            (s.cart ++ [(⟨product.name, product.price, q, ds⟩ : CartItem)]) := by
  have h1 : (session_add_to_cart s name q ds).cart
      = s.cart ++ [⟨product.name, product.price, q, ds⟩] := by
    simp [session_add_to_cart, clone, hp]
  refine ⟨h1, rfl, rfl, ?_⟩
  have h2 : (session_admin_update (session_add_to_cart s name q ds) name2
      available2 count2 discount2).cart = (session_add_to_cart s name q ds).cart := rfl
  rw [h2, h1]

theorem clone_snapshot_frame_witness :
    (session_admin_update (session_add_to_cart ⟨demo_products, []⟩ "Laptop1" 2 .base)
        "Laptop1" false 0 0).cart
      = [⟨"Laptop1", 800, 2, .base⟩] := by
  have h := clone_snapshot_frame ⟨demo_products, []⟩ "Laptop1" 2 .base
      ⟨"Laptop1", 800, true, 20, 5⟩ rfl "Laptop1" false 0 0 0
  exact h.2.1.trans h.1

/-- Claim C2: when a line item's quantity exceeds its entry's stock, checkout
stops at the first such item (in cart order): the catalog is exactly the
state reached after the earlier items (their decrements are kept, nothing is
rolled back), and entries not touched by those earlier items — in particular
those of the items after the failing one — are unchanged. -/
theorem checkout_aborts_no_rollback (pre post : Cart) (bad : CartItem)
    (products products1 : Products) (product : Product)
    (h1 : checkout pre products = (products1, .success))
    (h2 : List.lookup bad.name products1 = some product)
    (h3 : product.count < bad.quantity) :
    checkout (pre ++ bad :: post) products = (products1, .insufficientStock bad.name)
    ∧ ∀ k, (∀ item ∈ pre, item.name ≠ k) →
        List.lookup k products1 = List.lookup k products := by
  constructor
  · rw [checkout_append (bad :: post) pre products products1 h1]
    simp only [checkout, h2, if_neg (by omega : ¬ bad.quantity ≤ product.count)]
  · intro k hk
    exact checkout_lookup_untouched pre products products1 .success k h1 hk

theorem checkout_aborts_no_rollback_witness :
    checkout [⟨"Laptop1", 800, 5, .base⟩, ⟨"Headphones1", 50, 25, .base⟩,
        ⟨"Laptop1", 800, 1, .base⟩] demo_products
      = ([("Laptop1", ⟨"Laptop1", 800, true, 15, 5⟩),
          ("Headphones1", ⟨"Headphones1", 50, false, 10, 0⟩)],
         .insufficientStock "Headphones1") := by
  have h := checkout_aborts_no_rollback [⟨"Laptop1", 800, 5, .base⟩]
      [⟨"Laptop1", 800, 1, .base⟩] ⟨"Headphones1", 50, 25, .base⟩ demo_products
      [("Laptop1", ⟨"Laptop1", 800, true, 15, 5⟩),
       ("Headphones1", ⟨"Headphones1", 50, false, 10, 0⟩)]
      ⟨"Headphones1", 50, false, 10, 0⟩ (by decide) (by decide) (by decide)
  exact h.1

/-- Claim C3 counterexample: a cart line item whose name is absent from the
catalog yields a success outcome in which nothing was deducted — its
quantity is 1, yet the catalog after checkout equals the catalog before, so
success does not mean every (name, quantity) pair was deducted. -/
theorem checkout_success_without_deduction :
    (checkout [⟨"Ghost", 99, 1, .base⟩] demo_products).2 = .success
    ∧ (checkout [⟨"Ghost", 99, 1, .base⟩] demo_products).1 = demo_products
    ∧ List.lookup "Ghost" demo_products = none
    ∧ (⟨"Ghost", 99, 1, .base⟩ : CartItem).quantity = 1 := by decide

/-- Claim C3 (amended): checkout produces exactly one of two outcomes: on
success the final catalog is the per-pair deduction (of §6) of every cart
pair whose name is present in the catalog — pairs with absent names are
skipped — with entries reaching count 0 marked unavailable; otherwise it
fails naming the first product with insufficient stock, the catalog holding
the deductions made before that point. -/
theorem checkout_outcomes (cart : Cart) (products : Products) :
    (∀ products1, checkout cart products = (products1, .success) →
        products1
          = cart.foldl (fun ps item => spec_deduct ps item.name item.quantity)
              products)
    ∧ (∀ products1 name,
        checkout cart products = (products1, .insufficientStock name) →
        ∃ pre bad post product, cart = pre ++ bad :: post ∧ bad.name = name
          ∧ checkout pre products = (products1, .success)
          ∧ List.lookup name products1 = some product
          ∧ product.count < bad.quantity) := by
  induction cart, products using checkout.induct with
  | case1 products =>
    constructor
    · intro products1 h
      simp only [checkout, Prod.mk.injEq] at h
      simp [h.1]
    · intro products1 name h
      simp only [checkout, Prod.mk.injEq] at h
      exact absurd h.2 (by simp)
  | case2 item rest products hl ih =>
    have hs : spec_deduct products item.name item.quantity = products := by
      simp [spec_deduct, hl]
    constructor
    · intro products1 h
      simp only [checkout, hl] at h
      rw [List.foldl_cons, hs]
      exact ih.1 products1 h
    · intro products1 name h
      simp only [checkout, hl] at h
      obtain ⟨pre, bad, post, product, hcart, hbn, hpre, hlu, hcnt⟩ :=
        ih.2 products1 name h
      refine ⟨item :: pre, bad, post, product, by rw [hcart, List.cons_append],
        hbn, ?_, hlu, hcnt⟩
      simp only [checkout, hl]
      exact hpre
  | case3 item rest products product hl hq ih =>
    have hs : spec_deduct products item.name item.quantity
        = replace_product products item.name (checkout_update product item.quantity) := by
      simp [spec_deduct, hl]
    constructor
    · intro products1 h
      simp only [checkout, hl, if_pos hq] at h
      rw [List.foldl_cons, hs]
      exact ih.1 products1 h
    · intro products1 name h
      simp only [checkout, hl, if_pos hq] at h
      obtain ⟨pre, bad, post, product2, hcart, hbn, hpre, hlu, hcnt⟩ :=
        ih.2 products1 name h
      refine ⟨item :: pre, bad, post, product2, by rw [hcart, List.cons_append],
        hbn, ?_, hlu, hcnt⟩
      simp only [checkout, hl, if_pos hq]
      exact hpre
  | case4 item rest products product hl hq =>
    constructor
    · intro products1 h
      simp only [checkout, hl, if_neg hq, Prod.mk.injEq] at h
      exact absurd h.2 (by simp)
    · intro products1 name h
      simp only [checkout, hl, if_neg hq, Prod.mk.injEq,
        CheckoutResult.insufficientStock.injEq] at h
      obtain ⟨hp1, hns⟩ := h
      refine ⟨[], item, rest, product, rfl, hns, ?_, ?_, by omega⟩
      · simp [checkout, hp1]
      · rw [← hp1, ← hns]
        exact hl

theorem checkout_outcomes_witness :
    [("Laptop1", (⟨"Laptop1", 800, true, 15, 5⟩ : Product)),
     ("Headphones1", ⟨"Headphones1", 50, false, 10, 0⟩)]
      = List.foldl
          (fun (ps : Products) (item : CartItem) =>
            spec_deduct ps item.name item.quantity)
          demo_products [⟨"Laptop1", 800, 5, .base⟩] :=
  (checkout_outcomes [⟨"Laptop1", 800, 5, .base⟩] demo_products).1 _ (by decide)

/-- Claim C4 counterexample: starting from a cart satisfying the invariant,
`update_quantity` sets the quantity directly with no validation — updating to
0 leaves the line item present with quantity 0 instead of deleting it, so
the invariant is not preserved by every cart operation. -/
theorem update_quantity_zero_violates_invariant :
    update_quantity [⟨"Laptop1", 800, 1, .base⟩] "Laptop1" 0
      = [⟨"Laptop1", 800, 0, .base⟩]
    ∧ cart_invariant [⟨"Laptop1", 800, 1, .base⟩]
    ∧ ¬ cart_invariant (update_quantity [⟨"Laptop1", 800, 1, .base⟩] "Laptop1" 0) := by
  decide

theorem update_quantity_invariant_of_pos (cart : Cart) (name : String) (q : ℤ)
    (hq : 0 < q) (h : cart_invariant cart) :
    cart_invariant (update_quantity cart name q) := by
  induction cart with
  | nil => simpa [update_quantity] using h
  | cons item rest ih =>
    have hrest : cart_invariant rest := fun y hy => h y (List.mem_cons_of_mem _ hy)
    by_cases hn : item.name = name
    · intro x hx
      simp only [update_quantity, if_pos hn] at hx
      rcases List.mem_cons.mp hx with rfl | hx
      · exact hq
      · exact hrest x hx
    · intro x hx
      simp only [update_quantity, if_neg hn] at hx
      rcases List.mem_cons.mp hx with rfl | hx
      · exact h x (List.mem_cons_self _ _)
      · exact ih hrest x hx

theorem remove_some_invariant (cart : Cart) (name : String) (q : ℤ)
    (h : cart_invariant cart) : cart_invariant (remove_some cart name q) := by
  induction cart, name, q using remove_some.induct with
  | case1 name q => simpa [remove_some] using h
  | case2 q item hz =>
    simp only [remove_some, if_pos rfl, if_pos hz]
    intro x hx
    simp at hx
  | case3 q item hz next rest2 ih =>
    have hnext : 0 < next.quantity := h next (by simp)
    have hrest2 : cart_invariant rest2 := fun y hy => h y (by simp [hy])
    have ih2 := ih hrest2
    intro x hx
    simp only [remove_some, if_pos rfl, if_pos hz] at hx
    rcases List.mem_cons.mp hx with rfl | hx
    · exact hnext
    · exact ih2 x hx
  | case4 q item rest hz ih =>
    have hrest : cart_invariant rest := fun y hy => h y (List.mem_cons_of_mem _ hy)
    have hpos : 0 < item.quantity - q := by
      omega
    intro x hx
    rw [remove_some_cons_keep item rest item.name q rfl hz] at hx
    rcases List.mem_cons.mp hx with rfl | hx
    · exact hpos
    · exact ih hrest x hx
  | case5 name q item rest hn ih =>
    have hrest : cart_invariant rest := fun y hy => h y (List.mem_cons_of_mem _ hy)
    intro x hx
    rw [remove_some_cons_other item rest name q hn] at hx
    rcases List.mem_cons.mp hx with rfl | hx
    · exact h x (List.mem_cons_self _ _)
    · exact ih hrest x hx

/-- Claim C4 (amended): for a cart satisfying the invariant (all quantities
positive), `add_item` with a positive quantity, `update_quantity` with a
positive new quantity, and both forms of `remove_item` preserve it
(`remove_item` deletes a line item whose quantity drops to 0 or below); but
`add_item` and `update_quantity` perform no validation, so the invariant
holds for reachable states only when those two are called with positive
quantities — `update_quantity` with 0 leaves the item present with
quantity 0. -/
theorem cart_operations_invariant (cart : Cart) (hinv : cart_invariant cart) :
    (∀ (product : Product) (q : ℤ) (ds : DiscountStrategy), 0 < q →
        cart_invariant (add_item cart product q ds))
    ∧ (∀ (name : String) (q : ℤ), 0 < q →
        cart_invariant (update_quantity cart name q))
    ∧ (∀ name : String, cart_invariant (remove_item cart name none))
    ∧ (∀ (name : String) (q : ℤ), cart_invariant (remove_item cart name (some q))) := by
  refine ⟨?_, ?_, ?_, ?_⟩
  · intro product q ds hq x hx
    simp only [add_item, List.mem_append, List.mem_singleton] at hx
    rcases hx with hx | rfl
    · exact hinv x hx
    · exact hq
  · intro name q hq
    exact update_quantity_invariant_of_pos cart name q hq hinv
  · intro name x hx
    exact hinv x (List.mem_of_mem_filter hx)
  · intro name q
    exact remove_some_invariant cart name q hinv

theorem cart_operations_invariant_witness :
    cart_invariant (update_quantity [⟨"Laptop1", 800, 1, .base⟩] "Laptop1" 3)
    ∧ cart_invariant (remove_item [⟨"Laptop1", 800, 5, .base⟩] "Laptop1" (some 2)) := by
  have h := cart_operations_invariant [⟨"Laptop1", 800, 1, .base⟩] (by decide)
  have h2 := cart_operations_invariant [⟨"Laptop1", 800, 5, .base⟩] (by decide)
  exact ⟨h.2.1 "Laptop1" 3 (by decide), h2.2.2.2 "Laptop1" 2⟩

/-- Claim C5 counterexample: with two line items of the same name, removing a
quantity that deletes the first one skips the second (the Python loop
mutates the list it iterates over), so the second matching item keeps
quantity 5 instead of being decremented to 4 as the claim requires. -/
theorem remove_item_skips_after_delete :
    remove_item [⟨"A", 1, 1, .base⟩, ⟨"A", 1, 5, .base⟩] "A" (some 1)
      = [⟨"A", 1, 5, .base⟩]
    ∧ remove_item [⟨"A", 1, 1, .base⟩, ⟨"A", 1, 5, .base⟩] "A" (some 1)
      ≠ [⟨"A", 1, 4, .base⟩] := by
  decide

theorem remove_some_no_match (cart : Cart) (name : String) (q : ℤ)
    (h : ∀ item ∈ cart, item.name ≠ name) :
    remove_some cart name q = cart := by
  induction cart with
  | nil => rfl
  | cons item rest ih =>
    have h1 : item.name ≠ name := h item (List.mem_cons_self _ _)
    rw [remove_some_cons_other item rest name q h1,
      ih fun x hx => h x (List.mem_cons_of_mem _ hx)]

/-- Claim C5 (amended): `remove_item` with a specified quantity decrements
each matching line item it visits and deletes it when the resulting quantity
is ≤ 0, but deleting an item makes the iteration skip the element
immediately after it (left unmodified); when exactly one line item matches
the name, the claimed behaviour holds: removing a quantity ≥ the current
quantity deletes the item, removing less leaves it with the decremented
quantity, and all other items are unchanged. -/
theorem remove_some_single_match (pre post : Cart) (item : CartItem)
    (name : String) (q : ℤ)
    (hpre : ∀ x ∈ pre, x.name ≠ name) (hpost : ∀ x ∈ post, x.name ≠ name)
    (hit : item.name = name) :
    remove_item (pre ++ item :: post) name (some q)
      = (if item.quantity - q ≤ 0 then pre ++ post
         else pre ++ { item with quantity := item.quantity - q } :: post)
    ∧ (∀ (next : CartItem) (rest : Cart), item.quantity - q ≤ 0 →
        remove_item (item :: next :: rest) name (some q)
          = next :: remove_item rest name (some q)) := by
  constructor
  · induction pre with
    | nil =>
      show remove_some (item :: post) name q = _
      by_cases hz : item.quantity - q ≤ 0
      · rw [if_pos hz]
        cases post with
        | nil => exact remove_some_cons_delete_last item name q hit hz
        | cons next rest2 =>
          rw [remove_some_cons_delete item next rest2 name q hit hz,
            remove_some_no_match rest2 name q
              fun x hx => hpost x (List.mem_cons_of_mem _ hx)]
          rfl
      · rw [if_neg hz, remove_some_cons_keep item post name q hit hz,
          remove_some_no_match post name q hpost]
        rfl
    | cons y pre2 ih =>
      have hy : y.name ≠ name := hpre y (List.mem_cons_self _ _)
      have ih2 : remove_some (pre2 ++ item :: post) name q
          = (if item.quantity - q ≤ 0 then pre2 ++ post
             else pre2 ++ { item with quantity := item.quantity - q } :: post) :=
        ih fun x hx => hpre x (List.mem_cons_of_mem _ hx)
      show remove_some (y :: (pre2 ++ item :: post)) name q = _
      rw [remove_some_cons_other y (pre2 ++ item :: post) name q hy, ih2]
      by_cases hz : item.quantity - q ≤ 0 <;> simp [hz]
  · intro next rest hz
    exact remove_some_cons_delete item next rest name q hit hz

theorem remove_some_single_match_witness :
    remove_item [⟨"B", 2, 1, .base⟩, ⟨"A", 1, 5, .base⟩, ⟨"B", 2, 2, .base⟩]
        "A" (some 2)
      = [⟨"B", 2, 1, .base⟩, ⟨"A", 1, 3, .base⟩, ⟨"B", 2, 2, .base⟩] := by
  have h := remove_some_single_match [⟨"B", 2, 1, .base⟩] [⟨"B", 2, 2, .base⟩]
      ⟨"A", 1, 5, .base⟩ "A" 2 (by decide) (by decide) rfl
  exact h.1.trans (by decide)

/-- Claim C6: `remove_item` with an unspecified quantity deletes every line
item of that name: afterwards no item of the cart bears that name, every
item with a different name is still present, and the result is a sublist of
the original cart (items with other names are unchanged and keep their
order). -/
theorem remove_item_all (name : String) (cart : Cart) :
    (∀ item ∈ remove_item cart name none, item.name ≠ name)
    ∧ (∀ item ∈ cart, item.name ≠ name → item ∈ remove_item cart name none)
    ∧ (remove_item cart name none).Sublist cart := by
  refine ⟨?_, ?_, ?_⟩
  · intro item hi
    simp only [remove_item, remove_all, List.mem_filter, decide_eq_true_eq] at hi
    exact hi.2
  · intro item hi hn
    simp only [remove_item, remove_all, List.mem_filter, decide_eq_true_eq]
    exact ⟨hi, hn⟩
  · exact List.filter_sublist _

theorem remove_item_all_witness :
    (⟨"B", 2, 1, .base⟩ : CartItem)
      ∈ remove_item [⟨"A", 1, 1, .base⟩, ⟨"B", 2, 1, .base⟩] "A" none :=
  (remove_item_all "A" [⟨"A", 1, 1, .base⟩, ⟨"B", 2, 1, .base⟩]).2.1
    ⟨"B", 2, 1, .base⟩ (by decide) (by decide)
